import Mathlib

/-!
# gacek-tf-polling: the job poller of `polling.go`

A shallow embedding of `polling.go`.  The operating system, the network and the
Go standard-library decoders are collaborators the program calls; they are the
fields of `Env`.  `log.Fatal` ends the process: a function that reaches it
yields `Outcome.fatal` (or `none` for the read-only functions) and nothing
after it runs.  Every call of `fetch_artifact` and `move_job` is recorded, at
entry, in the `calls` of the state (the program logs both at entry).
-/

namespace Gacek

/-! ## Data model -/

/-- The `run` object of a Testing Farm response (`tf.Run`). -/
structure TfRun where
  Artifacts : String
  deriving DecidableEq, Repr

/-- The `result` object of a Testing Farm response (`tf.Result`). -/
structure TfResult where
  Overall : String
  deriving DecidableEq, Repr

/-- The decoded body of a status response: the anonymous struct `tf` of
`fetch_tf_status`.  An absent JSON field leaves the Go zero value, `""`. -/
structure TfResponse where
  State : String
  Run : TfRun
  Result : TfResult
  deriving DecidableEq, Repr

/-- One `log` element of a plan: its `name` and `href` attributes. -/
structure Log where
  Name : String
  Url : String
  deriving DecidableEq, Repr

/-- One `testsuite` element of `results.xml`: a plan with its logs, in document
order. -/
structure Plan where
  Name : String
  Logs : List Log
  deriving DecidableEq, Repr

/-- What `http.Get` hands back when it returns no error: the status code and the
body (`none`: reading the body fails). -/
structure HttpResponse where
  StatusCode : Nat
  Body : Option String
  deriving DecidableEq, Repr

/-- The collaborators of the program, over a filesystem of type `FS`.  `none`
(or `false`) stands for a returned Go error. -/
structure Env (FS : Type) where
  /-- The call `http.Get(url)`. -/
  httpGet : String → Option HttpResponse
  /-- The call `os.ReadFile(path)`. -/
  osReadFile : FS → String → Option String
  /-- The call `os.Create(path)`. -/
  osCreate : FS → String → Option FS
  /-- The call `io.Copy(out, resp.Body)` into the file created at `path`. -/
  ioCopy : FS → String → String → FS × Bool
  /-- The call `os.Rename(oldpath, newpath)`. -/
  osRename : FS → String → String → Option FS
  /-- The call `json.Unmarshal` into the struct `tf`. -/
  jsonUnmarshal : String → Option TfResponse
  /-- The call `xml.Unmarshal` into the struct `dispatch`; the result is `TfId`. -/
  xmlUnmarshalDispatch : String → Option String
  /-- The call `xml.Unmarshal` into the struct `results`; the result is `Plans`. -/
  xmlUnmarshalResults : String → Option (List Plan)

/-- A recorded call of one of the two effectful functions of the program. -/
inductive Call where
  | fetch_artifact (url : String) (path : String)
  | move_job (job : String) (dest : String)
  deriving DecidableEq, Repr

/-- The filesystem together with the calls made so far, oldest first. -/
structure PollState (FS : Type) where
  fs : FS
  calls : List Call

/-- How a function ends: it returns (`done`) or `log.Fatal` ends the process
(`fatal`); both carry the state reached. -/
inductive Outcome (FS : Type) where
  | done (s : PollState FS)
  | fatal (s : PollState FS)

/-- The state an outcome carries. -/
def Outcome.state {FS : Type} : Outcome FS → PollState FS
  | .done s => s
  | .fatal s => s

/-- Whether the function returned. -/
def Outcome.returned {FS : Type} : Outcome FS → Bool
  | .done _ => true
  | .fatal _ => false

/-! ## The program -/

def gacek_home : String := "/mnt/nfs/gacek"

def jobs_dir : String := gacek_home ++ "/jobs"

def queues_dir : String := gacek_home ++ "/queues"

/-- The function `move_job`: one rename from the pending queue to `dest`. -/
def move_job {FS : Type} (env : Env FS) (job : String) (dest : String)
    (s : PollState FS) : Outcome FS :=
  let s1 : PollState FS := { s with calls := s.calls ++ [Call.move_job job dest] }
  let pending_path := queues_dir ++ "/pending/" ++ job
  let dest_path := queues_dir ++ "/" ++ dest ++ "/" ++ job
  match env.osRename s1.fs pending_path dest_path with
  | none => .fatal s1
  | some fs1 => .done { s1 with fs := fs1 }

/-- The function `fetch_tf_status`: it writes nothing, so it is a value, `none`
when `log.Fatal` is reached. -/
def fetch_tf_status {FS : Type} (env : Env FS) (id : String) : Option (String × String) :=
  let url := "https://api.testing-farm.io/v0.1/requests/" ++ id
  match env.httpGet url with
  | none => none
  | some resp =>
    if resp.StatusCode ≠ 200 then none
    else
      match resp.Body with
      | none => none
      | some bytes =>
        match env.jsonUnmarshal bytes with
        | none => none
        | some tf =>
          if tf.State ≠ "error" ∧ tf.State ≠ "complete" ∧ tf.State ≠ "canceled" then
            some ("pending", "")
          else if tf.State ≠ "complete" then
            some ("error", "")
          else if tf.Result.Overall ≠ "passed" ∧ tf.Result.Overall ≠ "failed" then
            some ("error", "")
          else
            some ("complete", tf.Run.Artifacts)

/-- The function `fetch_artifact`. -/
def fetch_artifact {FS : Type} (env : Env FS) (url : String) (path : String)
    (s : PollState FS) : Outcome FS :=
  let s1 : PollState FS := { s with calls := s.calls ++ [Call.fetch_artifact url path] }
  match env.httpGet url with
  | none => .fatal s1
  | some resp =>
    if resp.StatusCode ≠ 200 then .fatal s1
    else
      match env.osCreate s1.fs path with
      | none => .fatal s1
      | some fs1 =>
        match resp.Body with
        | none => .fatal { s1 with fs := fs1 }
        | some body =>
          match env.ioCopy fs1 path body with
          | (fs2, true) => .done { s1 with fs := fs2 }
          | (fs2, false) => .fatal { s1 with fs := fs2 }

/-- The function `get_tf_id`: it writes nothing, so it is a value, `none` when
`log.Fatal` is reached. -/
def get_tf_id {FS : Type} (env : Env FS) (fs : FS) (job : String) : Option String :=
  let job_dir := jobs_dir ++ "/" ++ job
  match env.osReadFile fs (job_dir ++ "/tf-dispatch.xml") with
  | none => none
  | some bytes => env.xmlUnmarshalDispatch bytes

/-- The inner loop of `poll_job` (`for _, log := range plan.Logs`): the value of
`workdir` after it. -/
def plan_workdir (logs : List Log) : String :=
  logs.foldl (fun workdir log => if log.Name = "workdir" then log.Url else workdir) ""

/-- The body of the outer loop of `poll_job`, for one plan. -/
def poll_plan {FS : Type} (env : Env FS) (job_dir : String) (plan : Plan)
    (s : PollState FS) : Outcome FS :=
  let workdir := plan_workdir plan.Logs
  if workdir ≠ "" then
    fetch_artifact env (workdir ++ "/" ++ plan.Name ++ "/discover/tests.yaml")
      (job_dir ++ plan.Name ++ "-tests.yaml") s
  else .done s

/-- The outer loop of `poll_job` (`for _, plan := range results.Plans`). -/
def poll_plans {FS : Type} (env : Env FS) (job_dir : String) :
    List Plan → PollState FS → Outcome FS
  | [], s => .done s
  | plan :: rest, s =>
    match poll_plan env job_dir plan s with
    | .fatal s1 => .fatal s1
    | .done s1 => poll_plans env job_dir rest s1

/-- The function `poll_job`. -/
def poll_job {FS : Type} (env : Env FS) (job : String) (s : PollState FS) : Outcome FS :=
  match get_tf_id env s.fs job with
  | none => .fatal s
  | some tf_id =>
    match fetch_tf_status env tf_id with
    | none => .fatal s
    | some (status, artifacts) =>
      if status = "error" then
        move_job env job "error" s
      else if status = "complete" then
        let job_dir := jobs_dir ++ "/" ++ job
        let results_path := job_dir ++ "/results.xml"
        match fetch_artifact env (artifacts ++ "/results.xml") results_path s with
        | .fatal s1 => .fatal s1
        | .done s1 =>
          match env.osReadFile s1.fs results_path with
          | none => .fatal s1
          | some bytes =>
            match env.xmlUnmarshalResults bytes with
            | none => .fatal s1
            | some plans =>
              match poll_plans env job_dir plans s1 with
              | .fatal s2 => .fatal s2
              | .done s2 => move_job env job "complete" s2
      else .done s

/-! ## Derived descriptions, used to state the properties -/

/-- The log entries of a plan that are named `workdir`, in document order. -/
def workdir_entries (logs : List Log) : List Log :=
  logs.filter (fun log => log.Name = "workdir")

/-- The call, if any, that the loop body `poll_plan` makes for a plan. -/
def secondary_fetch (job_dir : String) (plan : Plan) : Option Call :=
  if plan_workdir plan.Logs ≠ "" then
    some (Call.fetch_artifact (plan_workdir plan.Logs ++ "/" ++ plan.Name ++ "/discover/tests.yaml")
      (job_dir ++ plan.Name ++ "-tests.yaml"))
  else none

/-- The secondary fetch of a plan, read off its log entries: one call when some
entry named `workdir` has a non-empty `href`, none otherwise. -/
def workdir_href_fetch (job_dir : String) (plan : Plan) : Option Call :=
  if ∃ log ∈ plan.Logs, log.Name = "workdir" ∧ log.Url ≠ "" then
    some (Call.fetch_artifact (plan_workdir plan.Logs ++ "/" ++ plan.Name ++ "/discover/tests.yaml")
      (job_dir ++ plan.Name ++ "-tests.yaml"))
  else none

/-- Whether a recorded call is a call of `move_job`. -/
def Call.is_move : Call → Bool
  | .move_job _ _ => true
  | .fetch_artifact _ _ => false

/-- No secondary fetch of `plans` is fatal: the loop body returns for each of the
plans, from whatever state it is run. -/
def secondary_fetches_succeed {FS : Type} (env : Env FS) (job_dir : String)
    (plans : List Plan) : Prop :=
  ∀ plan ∈ plans, ∀ s : PollState FS, (poll_plan env job_dir plan s).returned = true

/-- The calls of a poll of a complete job whose results document holds `plans`,
when nothing is fatal on the way. -/
def complete_calls (job : String) (artifacts : String) (plans : List Plan) : List Call :=
  [Call.fetch_artifact (artifacts ++ "/results.xml") (jobs_dir ++ "/" ++ job ++ "/results.xml")]
    ++ plans.filterMap (secondary_fetch (jobs_dir ++ "/" ++ job))
    ++ [Call.move_job job "complete"]

/-! ## A concrete environment, to run the program on examples -/

/-- An in-memory filesystem: the paths that exist, each with its content. -/
abbrev MemFS : Type := List (String × String)

def MemFS.read (fs : MemFS) (path : String) : Option String :=
  match fs.find? (fun e => e.1 = path) with
  | none => none
  | some e => some e.2

def MemFS.write (fs : MemFS) (path : String) (content : String) : MemFS :=
  (path, content) :: fs.filter (fun e => e.1 ≠ path)

def MemFS.rename (fs : MemFS) (oldpath : String) (newpath : String) : Option MemFS :=
  match MemFS.read fs oldpath with
  | none => none
  | some content =>
    some ((newpath, content) :: fs.filter (fun e => e.1 ≠ oldpath ∧ e.1 ≠ newpath))

/-- An environment over `MemFS`.  The remote service answers every status query
with `tf`; every other URL serves the body `"artifact"`, except the URLs in
`down`, which answer 404.  A dispatch descriptor decodes to its own content and
every results document decodes to `plans`. -/
def memEnv (tf : TfResponse) (plans : List Plan) (down : List String) : Env MemFS where
  httpGet := fun url =>
    if url ∈ down then some { StatusCode := 404, Body := some "not found" }
    else some { StatusCode := 200, Body := some "artifact" }
  osReadFile := MemFS.read
  osCreate := fun fs path => some (MemFS.write fs path "")
  ioCopy := fun fs path body => (MemFS.write fs path body, true)
  osRename := MemFS.rename
  jsonUnmarshal := fun _ => some tf
  xmlUnmarshalDispatch := fun bytes => some bytes
  xmlUnmarshalResults := fun _ => some plans

/-- The job `job-42` of request `abc-123`, pending. -/
def fs_job42 : MemFS :=
  [("/mnt/nfs/gacek/jobs/job-42/tf-dispatch.xml", "abc-123"),
   ("/mnt/nfs/gacek/queues/pending/job-42", "")]

/-- The environment in which the per-plan file of `plan1` answers 404; the
results document holds `plan1` and then a second plan. -/
def env_plan1_down : Env MemFS :=
  memEnv { State := "complete", Run := { Artifacts := "https://x/artifacts" },
           Result := { Overall := "failed" } }
    [{ Name := "plan1", Logs := [{ Name := "console", Url := "https://x/console.log" },
                                 { Name := "workdir", Url := "https://x/work" }] },
     { Name := "planB", Logs := [{ Name := "workdir", Url := "https://x/wb" }] }]
    ["https://x/work/plan1/discover/tests.yaml"]

/-- The state before a poll of `job-42`: no call made yet. -/
def start_job42 : PollState MemFS := { fs := fs_job42, calls := [] }

/-- A remote response: request complete, overall result `failed`. -/
def tf_complete : TfResponse :=
  { State := "complete", Run := { Artifacts := "https://x/artifacts" },
    Result := { Overall := "failed" } }

/-- A remote response: request canceled. -/
def tf_canceled : TfResponse :=
  { State := "canceled", Run := { Artifacts := "https://x/artifacts" },
    Result := { Overall := "passed" } }

/-- A remote response: request running. -/
def tf_running : TfResponse :=
  { State := "running", Run := { Artifacts := "https://x/artifacts" },
    Result := { Overall := "passed" } }

/-- A plan whose only log entry is named `workdir` and has an empty `href`. -/
def plan_empty_href : Plan :=
  { Name := "p", Logs := [{ Name := "workdir", Url := "" }] }

/-- A plan with two log entries named `workdir`. -/
def plan_two_workdirs : Plan :=
  { Name := "p", Logs := [{ Name := "workdir", Url := "https://x/a" },
                           { Name := "workdir", Url := "https://x/b" }] }

/-- A plan with one `workdir` entry, after another log. -/
def plan_one_workdir : Plan :=
  { Name := "plan1", Logs := [{ Name := "console", Url := "https://x/console.log" },
                               { Name := "workdir", Url := "https://x/work" }] }

/-- A plan without any log. -/
def plan_no_logs : Plan :=
  { Name := "plan2", Logs := [] }

/-! ## Status mapping of `fetch_tf_status` -/

/-- C1: a decoded response whose state is none of `error`, `complete`,
`canceled` is mapped to `("pending", "")`, whatever its overall result and
artifacts fields hold. -/
theorem fetch_tf_status_pending {FS : Type} (env : Env FS) (id : String)
    (resp : HttpResponse) (bytes : String) (tf : TfResponse)
    (hget : env.httpGet ("https://api.testing-farm.io/v0.1/requests/" ++ id) = some resp)
    (hcode : resp.StatusCode = 200) (hbody : resp.Body = some bytes)
    (hjson : env.jsonUnmarshal bytes = some tf)
    (h1 : tf.State ≠ "error") (h2 : tf.State ≠ "complete") (h3 : tf.State ≠ "canceled") :
    fetch_tf_status env id = some ("pending", "") := by
  simp [fetch_tf_status, hget, hcode, hbody, hjson, h1, h2, h3]

theorem fetch_tf_status_pending_witness :
    fetch_tf_status
      (memEnv { State := "running", Run := { Artifacts := "https://x/artifacts" },
                Result := { Overall := "passed" } } [] [])
      "abc-123" = some ("pending", "") :=
  fetch_tf_status_pending _ "abc-123" { StatusCode := 200, Body := some "artifact" } "artifact" _
    (by decide) (by decide) (by decide) rfl (by decide) (by decide) (by decide)

/-- C2: a decoded response whose state is `complete` and whose overall result
is `passed` or `failed` is mapped to `("complete", a)`, where `a` is the
`run.artifacts` string of the response, unchanged. -/
theorem fetch_tf_status_complete {FS : Type} (env : Env FS) (id : String)
    (resp : HttpResponse) (bytes : String) (tf : TfResponse)
    (hget : env.httpGet ("https://api.testing-farm.io/v0.1/requests/" ++ id) = some resp)
    (hcode : resp.StatusCode = 200) (hbody : resp.Body = some bytes)
    (hjson : env.jsonUnmarshal bytes = some tf)
    (hstate : tf.State = "complete")
    (hoverall : tf.Result.Overall = "passed" ∨ tf.Result.Overall = "failed") :
    fetch_tf_status env id = some ("complete", tf.Run.Artifacts) := by
  rcases hoverall with h | h <;>
    simp [fetch_tf_status, hget, hcode, hbody, hjson, hstate, h]

theorem fetch_tf_status_complete_witness :
    fetch_tf_status
      (memEnv { State := "complete", Run := { Artifacts := "" },
                Result := { Overall := "failed" } } [] [])
      "abc-124" = some ("complete", "") :=
  fetch_tf_status_complete _ "abc-124" { StatusCode := 200, Body := some "artifact" } "artifact"
    { State := "complete", Run := { Artifacts := "" }, Result := { Overall := "failed" } }
    (by decide) (by decide) (by decide) rfl rfl (Or.inr rfl)

/-- C3: a decoded response whose state is `error` or `canceled`, or whose state
is `complete` with an overall result other than `passed` and `failed` (the
empty string included), is mapped to `("error", "")`: the artifacts field is not
passed through. -/
theorem fetch_tf_status_error {FS : Type} (env : Env FS) (id : String)
    (resp : HttpResponse) (bytes : String) (tf : TfResponse)
    (hget : env.httpGet ("https://api.testing-farm.io/v0.1/requests/" ++ id) = some resp)
    (hcode : resp.StatusCode = 200) (hbody : resp.Body = some bytes)
    (hjson : env.jsonUnmarshal bytes = some tf)
    (h : tf.State = "error" ∨ tf.State = "canceled" ∨
      (tf.State = "complete" ∧ tf.Result.Overall ≠ "passed" ∧ tf.Result.Overall ≠ "failed")) :
    fetch_tf_status env id = some ("error", "") := by
  rcases h with h | h | ⟨h, h4, h5⟩ <;>
    simp [fetch_tf_status, hget, hcode, hbody, hjson, h, *]

theorem fetch_tf_status_error_witness :
    fetch_tf_status
      (memEnv { State := "complete", Run := { Artifacts := "https://x/artifacts" },
                Result := { Overall := "" } } [] [])
      "abc-125" = some ("error", "") :=
  fetch_tf_status_error _ "abc-125" { StatusCode := 200, Body := some "artifact" } "artifact"
    { State := "complete", Run := { Artifacts := "https://x/artifacts" },
      Result := { Overall := "" } }
    (by decide) (by decide) (by decide) rfl
    (Or.inr (Or.inr ⟨rfl, by decide, by decide⟩))


/-! ## Lemmas on the recorded calls -/

theorem plan_workdir_concat (logs : List Log) (log : Log) :
    plan_workdir (logs ++ [log]) =
      if log.Name = "workdir" then log.Url else plan_workdir logs := by
  simp [plan_workdir, List.foldl_append]

theorem workdir_entries_concat (logs : List Log) (log : Log) :
    workdir_entries (logs ++ [log]) =
      if log.Name = "workdir" then workdir_entries logs ++ [log] else workdir_entries logs := by
  by_cases h : log.Name = "workdir" <;> simp [workdir_entries, List.filter_append, h]

theorem plan_workdir_eq_last (logs : List Log) :
    plan_workdir logs =
      match (workdir_entries logs).getLast? with
      | none => ""
      | some log => log.Url := by
  induction logs using List.reverseRecOn with
  | nil => simp [plan_workdir, workdir_entries]
  | append_singleton logs log ih =>
    rw [plan_workdir_concat, workdir_entries_concat]
    by_cases h : log.Name = "workdir"
    · simp [h]
    · simp [h, ih]

theorem fetch_artifact_calls {FS : Type} (env : Env FS) (url path : String) (s : PollState FS) :
    (fetch_artifact env url path s).state.calls = s.calls ++ [Call.fetch_artifact url path] := by
  unfold fetch_artifact
  simp only
  split
  · rfl
  · split
    · rfl
    · split
      · rfl
      · split
        · rfl
        · split <;> rfl

theorem move_job_calls {FS : Type} (env : Env FS) (job dest : String) (s : PollState FS) :
    (move_job env job dest s).state.calls = s.calls ++ [Call.move_job job dest] := by
  unfold move_job
  simp only
  split <;> rfl

theorem poll_plan_calls {FS : Type} (env : Env FS) (job_dir : String) (plan : Plan)
    (s : PollState FS) :
    (poll_plan env job_dir plan s).state.calls =
      s.calls ++ (secondary_fetch job_dir plan).toList := by
  unfold poll_plan secondary_fetch
  by_cases h : plan_workdir plan.Logs = ""
  · simp [h, Outcome.state]
  · simp [h, fetch_artifact_calls]

theorem poll_plans_calls_done {FS : Type} (env : Env FS) (job_dir : String) (plans : List Plan) :
    ∀ s s2 : PollState FS, poll_plans env job_dir plans s = .done s2 →
      s2.calls = s.calls ++ plans.filterMap (secondary_fetch job_dir) := by
  induction plans with
  | nil =>
    intro s s2 h
    simp [poll_plans] at h
    simp [h]
  | cons plan rest ih =>
    intro s s2 h
    have hc := poll_plan_calls env job_dir plan s
    simp only [poll_plans] at h
    cases hp : poll_plan env job_dir plan s with
    | fatal s1 => simp [hp] at h
    | done s1 =>
      rw [hp] at h hc
      simp only [Outcome.state] at hc
      have := ih s1 s2 h
      rw [this, hc]
      cases hs : secondary_fetch job_dir plan <;> simp [List.filterMap_cons, hs]

theorem poll_plans_calls_made {FS : Type} (env : Env FS) (job_dir : String) (plans : List Plan) :
    ∀ s : PollState FS, ∃ made,
      (poll_plans env job_dir plans s).state.calls = s.calls ++ made ∧
      made <+: plans.filterMap (secondary_fetch job_dir) := by
  induction plans with
  | nil =>
    intro s
    exact ⟨[], by simp [poll_plans, Outcome.state], by simp⟩
  | cons plan rest ih =>
    intro s
    have hc := poll_plan_calls env job_dir plan s
    have hf : List.filterMap (secondary_fetch job_dir) (plan :: rest) =
        (secondary_fetch job_dir plan).toList ++ rest.filterMap (secondary_fetch job_dir) := by
      cases hs : secondary_fetch job_dir plan <;> simp [List.filterMap_cons, hs]
    simp only [poll_plans]
    cases hp : poll_plan env job_dir plan s with
    | fatal s1 =>
      rw [hp] at hc
      simp only [Outcome.state] at hc
      exact ⟨(secondary_fetch job_dir plan).toList, by simp [Outcome.state, hc], by
        rw [hf]; exact List.prefix_append _ _⟩
    | done s1 =>
      rw [hp] at hc
      simp only [Outcome.state] at hc
      obtain ⟨made, h1, h2⟩ := ih s1
      refine ⟨(secondary_fetch job_dir plan).toList ++ made, ?_, ?_⟩
      · simp [h1, hc]
      · rw [hf]
        exact (List.prefix_append_right_inj _).mpr h2


theorem poll_plans_returned {FS : Type} (env : Env FS) (job_dir : String) (plans : List Plan)
    (h : secondary_fetches_succeed env job_dir plans) :
    ∀ s : PollState FS, (poll_plans env job_dir plans s).returned = true := by
  induction plans with
  | nil =>
    intro s
    rfl
  | cons plan rest ih =>
    intro s
    have hp := h plan (List.mem_cons_self _ _) s
    simp only [poll_plans]
    cases hq : poll_plan env job_dir plan s with
    | fatal s1 => simp [hq, Outcome.returned] at hp
    | done s1 => exact ih (fun q hq2 => h q (List.mem_cons_of_mem _ hq2)) s1

theorem memEnv_fetch_artifact_returned (tf : TfResponse) (plans : List Plan)
    (url path : String) (s : PollState MemFS) :
    (fetch_artifact (memEnv tf plans []) url path s).returned = true := by
  simp [fetch_artifact, memEnv, Outcome.returned]

theorem memEnv_secondary_fetches_succeed (tf : TfResponse) (plans : List Plan)
    (job_dir : String) (ps : List Plan) :
    secondary_fetches_succeed (memEnv tf plans []) job_dir ps := by
  intro plan _ s
  unfold poll_plan
  by_cases h : plan_workdir plan.Logs = ""
  · simp [h, Outcome.returned]
  · simp only [ne_eq, h, not_false_eq_true, if_true]
    exact memEnv_fetch_artifact_returned tf plans _ _ s

theorem plan_workdir_ne_empty_iff (logs : List Log) (h : (workdir_entries logs).length ≤ 1) :
    plan_workdir logs ≠ "" ↔ ∃ log ∈ logs, log.Name = "workdir" ∧ log.Url ≠ "" := by
  have hmem : ∀ log, log ∈ workdir_entries logs ↔ log ∈ logs ∧ log.Name = "workdir" := by
    intro log
    simp [workdir_entries, List.mem_filter]
  rw [plan_workdir_eq_last]
  cases hw : workdir_entries logs with
  | nil =>
    rw [hw] at hmem
    simp only [List.getLast?_nil, ne_eq, not_true_eq_false, false_iff]
    rintro ⟨log, hl, hn, -⟩
    exact absurd ((hmem log).mpr ⟨hl, hn⟩) (List.not_mem_nil _)
  | cons a rest =>
    cases rest with
    | cons b rest2 =>
      rw [hw] at h
      simp at h
    | nil =>
      rw [hw] at hmem
      simp only [List.getLast?_singleton]
      constructor
      · intro hne
        have := (hmem a).mp (List.mem_singleton_self a)
        exact ⟨a, this.1, this.2, hne⟩
      · rintro ⟨log, hl, hn, hu⟩
        have := (hmem log).mpr ⟨hl, hn⟩
        rw [List.mem_singleton] at this
        rw [← this]
        exact hu

theorem secondary_fetch_isSome_iff (job_dir : String) (plan : Plan) :
    (secondary_fetch job_dir plan).isSome = true ↔ plan_workdir plan.Logs ≠ "" := by
  unfold secondary_fetch
  by_cases h : plan_workdir plan.Logs = "" <;> simp [h]

theorem secondary_fetch_is_fetch (job_dir : String) (plans : List Plan) :
    ∀ c ∈ plans.filterMap (secondary_fetch job_dir), ∃ url path, c = Call.fetch_artifact url path := by
  intro c hc
  rw [List.mem_filterMap] at hc
  obtain ⟨plan, -, hp⟩ := hc
  unfold secondary_fetch at hp
  by_cases h : plan_workdir plan.Logs = ""
  · simp [h] at hp
  · simp [h] at hp
    exact ⟨_, _, hp.symm⟩

theorem length_filterMap_eq_countP {α β : Type} (f : α → Option β) (l : List α) :
    (l.filterMap f).length = l.countP (fun a => (f a).isSome) := by
  induction l with
  | nil => rfl
  | cons a l ih =>
    cases h : f a <;> simp [List.filterMap_cons, List.countP_cons, h, ih]


theorem secondary_fetch_eq_href_fetch (job_dir : String) (plan : Plan)
    (h : (workdir_entries plan.Logs).length ≤ 1) :
    secondary_fetch job_dir plan = workdir_href_fetch job_dir plan := by
  unfold secondary_fetch workdir_href_fetch
  by_cases hw : plan_workdir plan.Logs ≠ ""
  · rw [if_pos hw, if_pos ((plan_workdir_ne_empty_iff plan.Logs h).mp hw)]
  · rw [if_neg hw, if_neg (fun hex => hw ((plan_workdir_ne_empty_iff plan.Logs h).mpr hex))]

theorem href_fetch_isSome_iff (job_dir : String) (plan : Plan) :
    (workdir_href_fetch job_dir plan).isSome = true ↔
      ∃ log ∈ plan.Logs, log.Name = "workdir" ∧ log.Url ≠ "" := by
  unfold workdir_href_fetch
  by_cases h : ∃ log ∈ plan.Logs, log.Name = "workdir" ∧ log.Url ≠ ""
  · rw [if_pos h]
    simpa using h
  · rw [if_neg h]
    simpa using h

theorem poll_plan_fatal_isSome {FS : Type} (env : Env FS) (job_dir : String) (plan : Plan)
    (s : PollState FS) (h : (poll_plan env job_dir plan s).returned = false) :
    (secondary_fetch job_dir plan).isSome = true := by
  rw [secondary_fetch_isSome_iff]
  intro he
  simp [poll_plan, he, Outcome.returned] at h

theorem poll_plans_reached {FS : Type} (env : Env FS) (job_dir : String) (plans : List Plan) :
    ∀ s : PollState FS, ∃ reached rest, plans = reached ++ rest ∧
      (poll_plans env job_dir plans s).state.calls =
        s.calls ++ reached.filterMap (secondary_fetch job_dir) ∧
      ((poll_plans env job_dir plans s).returned = true → rest = []) ∧
      ((poll_plans env job_dir plans s).returned = false →
        ∃ init last, reached = init ++ [last] ∧
          (secondary_fetch job_dir last).isSome = true ∧
          ∃ st, (poll_plan env job_dir last st).returned = false) := by
  induction plans with
  | nil =>
    intro s
    exact ⟨[], [], rfl, by simp [poll_plans, Outcome.state], fun _ => rfl,
      fun h => by simp [poll_plans, Outcome.returned] at h⟩
  | cons plan tail ih =>
    intro s
    have hc := poll_plan_calls env job_dir plan s
    have hf : ∀ l : List Plan, List.filterMap (secondary_fetch job_dir) (plan :: l) =
        (secondary_fetch job_dir plan).toList ++ l.filterMap (secondary_fetch job_dir) := by
      intro l
      cases hs : secondary_fetch job_dir plan <;> simp [List.filterMap_cons, hs]
    simp only [poll_plans]
    cases hp : poll_plan env job_dir plan s with
    | fatal s1 =>
      have hfat : (poll_plan env job_dir plan s).returned = false := by
        simp [hp, Outcome.returned]
      rw [hp] at hc
      simp only [Outcome.state] at hc
      refine ⟨[plan], tail, rfl, ?_, fun h => by simp [Outcome.returned] at h, fun _ =>
        ⟨[], plan, rfl, poll_plan_fatal_isSome env job_dir plan s hfat, s, hfat⟩⟩
      rw [hf]
      simp [Outcome.state, hc]
    | done s1 =>
      rw [hp] at hc
      simp only [Outcome.state] at hc
      obtain ⟨reached, rest, h1, h2, h3, h4⟩ := ih s1
      refine ⟨plan :: reached, rest, by rw [h1]; rfl, ?_, h3, ?_⟩
      · rw [hf, h2, hc, List.append_assoc]
      · intro hfat
        obtain ⟨init, last, e1, e2, e3⟩ := h4 hfat
        exact ⟨plan :: init, last, by rw [e1]; rfl, e2, e3⟩

theorem complete_calls_moves (job : String) (a : String) (plans : List Plan) :
    (complete_calls job a plans).filter Call.is_move = [Call.move_job job "complete"] := by
  have h : (plans.filterMap (secondary_fetch (jobs_dir ++ "/" ++ job))).filter Call.is_move = [] := by
    rw [List.filter_eq_nil_iff]
    intro c hc
    obtain ⟨url, path, rfl⟩ := secondary_fetch_is_fetch _ plans c hc
    simp [Call.is_move]
  simp [complete_calls, List.filter_append, h, Call.is_move, List.filter_cons]

/-! ## The loop over the plans -/

/-- C4, as stated, fails: a plan whose single `workdir` entry has an empty
`href` gets no secondary fetch.  The poll of a complete job whose results
document holds that one plan fetches `results.xml` and moves the job, and
nothing else. -/
theorem workdir_entry_with_empty_href_not_fetched :
    (workdir_entries plan_empty_href.Logs).length ≤ 1 ∧
    (∃ log ∈ plan_empty_href.Logs, log.Name = "workdir") ∧
    (poll_plan (memEnv tf_complete [plan_empty_href] []) (jobs_dir ++ "/" ++ "job-42")
      plan_empty_href start_job42).state.calls = [] ∧
    (poll_job (memEnv tf_complete [plan_empty_href] []) "job-42" start_job42).state.calls =
      [Call.fetch_artifact "https://x/artifacts/results.xml" "/mnt/nfs/gacek/jobs/job-42/results.xml",
       Call.move_job "job-42" "complete"] := by
  decide

/-- C4, amended: for a complete job whose results document parses into plans
with at most one log entry named `workdir` each, the loop of `poll_job` goes
through the plans in document order and stops at the first plan whose secondary
fetch is fatal.  For every plan it reaches it makes a secondary fetch exactly
when the plan has a log entry named `workdir` whose `href` is not empty, so the
number of secondary fetches is the number of reached plans with such an entry.
When no secondary fetch is fatal every plan is reached; when one is, the last
plan reached is the one whose fetch was fatal and the later plans get none. -/
theorem poll_job_secondary_fetches {FS : Type} (env : Env FS) (job : String) (id : String)
    (a : String) (bytes : String) (plans : List Plan) (s s1 : PollState FS)
    (hid : get_tf_id env s.fs job = some id)
    (hst : fetch_tf_status env id = some ("complete", a))
    (hres : fetch_artifact env (a ++ "/results.xml") (jobs_dir ++ "/" ++ job ++ "/results.xml") s
      = .done s1)
    (hread : env.osReadFile s1.fs (jobs_dir ++ "/" ++ job ++ "/results.xml") = some bytes)
    (hparse : env.xmlUnmarshalResults bytes = some plans)
    (h : ∀ plan ∈ plans, (workdir_entries plan.Logs).length ≤ 1) :
    ∃ reached rest, plans = reached ++ rest ∧
      (poll_job env job s).state.calls =
        s.calls ++
          [Call.fetch_artifact (a ++ "/results.xml") (jobs_dir ++ "/" ++ job ++ "/results.xml")] ++
          reached.filterMap (workdir_href_fetch (jobs_dir ++ "/" ++ job)) ++
          (if (poll_plans env (jobs_dir ++ "/" ++ job) plans s1).returned = true then
            [Call.move_job job "complete"] else []) ∧
      (reached.filterMap (workdir_href_fetch (jobs_dir ++ "/" ++ job))).length =
        reached.countP (fun plan => decide (∃ log ∈ plan.Logs, log.Name = "workdir" ∧ log.Url ≠ "")) ∧
      ((secondary_fetches_succeed env (jobs_dir ++ "/" ++ job) plans ∨
          (poll_job env job s).returned = true) → rest = []) ∧
      ((poll_plans env (jobs_dir ++ "/" ++ job) plans s1).returned = false →
        ∃ init last, reached = init ++ [last] ∧
          (∃ log ∈ last.Logs, log.Name = "workdir" ∧ log.Url ≠ "") ∧
          ∃ st, (poll_plan env (jobs_dir ++ "/" ++ job) last st).returned = false) := by
  have hs1 : s1.calls = s.calls ++
      [Call.fetch_artifact (a ++ "/results.xml") (jobs_dir ++ "/" ++ job ++ "/results.xml")] := by
    have := fetch_artifact_calls env (a ++ "/results.xml")
      (jobs_dir ++ "/" ++ job ++ "/results.xml") s
    rw [hres] at this
    exact this
  have hpoll : poll_job env job s =
      match poll_plans env (jobs_dir ++ "/" ++ job) plans s1 with
      | .fatal s2 => .fatal s2
      | .done s2 => move_job env job "complete" s2 := by
    simp [poll_job, hid, hst, hres, hread, hparse]
  obtain ⟨reached, rest, hpl, hcalls, hret, hfat⟩ :=
    poll_plans_reached env (jobs_dir ++ "/" ++ job) plans s1
  have hcongr : reached.filterMap (secondary_fetch (jobs_dir ++ "/" ++ job)) =
      reached.filterMap (workdir_href_fetch (jobs_dir ++ "/" ++ job)) := by
    apply List.filterMap_congr
    intro plan hp
    exact secondary_fetch_eq_href_fetch _ plan
      (h plan (by rw [hpl]; exact List.mem_append_left _ hp))
  rw [hcongr] at hcalls
  refine ⟨reached, rest, hpl, ?_, ?_, ?_, ?_⟩
  · rw [hpoll]
    cases hp : poll_plans env (jobs_dir ++ "/" ++ job) plans s1 with
    | fatal s2 =>
      rw [hp] at hcalls
      simp only [Outcome.state] at hcalls
      simp [Outcome.state, Outcome.returned, hcalls, hs1]
    | done s2 =>
      rw [hp] at hcalls
      simp only [Outcome.state] at hcalls
      simp [Outcome.returned, move_job_calls, hcalls, hs1]
  · rw [length_filterMap_eq_countP]
    apply List.countP_congr
    intro plan _
    simp only [href_fetch_isSome_iff]
    simp
  · intro hok
    apply hret
    rcases hok with hok | hok
    · exact poll_plans_returned env _ plans hok s1
    · rw [hpoll] at hok
      cases hp : poll_plans env (jobs_dir ++ "/" ++ job) plans s1 with
      | fatal s2 => simp [hp, Outcome.returned] at hok
      | done s2 => rfl
  · intro hf
    obtain ⟨init, last, e1, e2, e3⟩ := hfat hf
    refine ⟨init, last, e1, ?_, e3⟩
    have hmem : last ∈ plans := by
      rw [hpl, e1]
      simp
    rw [secondary_fetch_eq_href_fetch _ last (h last hmem)] at e2
    exact (href_fetch_isSome_iff _ last).mp e2

theorem poll_job_secondary_fetches_witness :
    (workdir_entries plan_empty_href.Logs).length ≤ 1 ∧
    (poll_job (memEnv tf_complete [plan_one_workdir, plan_no_logs, plan_empty_href] [])
      "job-42" start_job42).state.calls.length = 3 := by
  refine ⟨by decide, ?_⟩
  obtain ⟨reached, rest, hpl, hcalls, hlen, hrest, -⟩ :=
    poll_job_secondary_fetches
      (memEnv tf_complete [plan_one_workdir, plan_no_logs, plan_empty_href] [])
      "job-42" "abc-123" "https://x/artifacts" "artifact"
      [plan_one_workdir, plan_no_logs, plan_empty_href] start_job42
      (fetch_artifact (memEnv tf_complete [plan_one_workdir, plan_no_logs, plan_empty_href] [])
        ("https://x/artifacts" ++ "/results.xml") (jobs_dir ++ "/" ++ "job-42" ++ "/results.xml")
        start_job42).state
      (by decide) (by decide) rfl (by decide) rfl (by decide)
  have hr : rest = [] := hrest (Or.inr (by decide))
  rw [hr, List.append_nil] at hpl
  rw [hcalls, List.length_append, List.length_append, List.length_append, hlen, ← hpl]
  decide

/-- C5, as stated, fails: with two log entries named `workdir`, the fetch uses
the `href` of the second one, not of the first. -/
theorem poll_plan_not_first_workdir :
    (workdir_entries plan_two_workdirs.Logs).head? =
      some { Name := "workdir", Url := "https://x/a" } ∧
    plan_workdir plan_two_workdirs.Logs = "https://x/b" ∧
    (poll_plan (memEnv tf_complete [plan_two_workdirs] []) (jobs_dir ++ "/" ++ "job-42")
      plan_two_workdirs start_job42).state.calls =
      [Call.fetch_artifact "https://x/b/p/discover/tests.yaml"
        "/mnt/nfs/gacek/jobs/job-42p-tests.yaml"] ∧
    ¬ (∀ logs : List Log, ∀ log : Log,
        (workdir_entries logs).head? = some log → plan_workdir logs = log.Url) := by
  refine ⟨by decide, by decide, by decide, ?_⟩
  intro hall
  exact absurd (hall plan_two_workdirs.Logs { Name := "workdir", Url := "https://x/a" }
    (by decide)) (by decide)

/-- C5, amended: the workdir location of a plan is the `href` of the last log
entry (in document order) named `workdir`; the loop body makes the secondary
fetch from that location when it is not empty and does nothing otherwise; with
no entry of that name the location is empty and no secondary fetch occurs. -/
theorem poll_plan_uses_last_workdir {FS : Type} (env : Env FS) (job_dir : String)
    (plan : Plan) (s : PollState FS) :
    (plan_workdir plan.Logs =
      match (workdir_entries plan.Logs).getLast? with
      | none => ""
      | some log => log.Url) ∧
    (poll_plan env job_dir plan s =
      match (workdir_entries plan.Logs).getLast? with
      | none => .done s
      | some log =>
        if log.Url ≠ "" then
          fetch_artifact env (log.Url ++ "/" ++ plan.Name ++ "/discover/tests.yaml")
            (job_dir ++ plan.Name ++ "-tests.yaml") s
        else .done s) ∧
    ((workdir_entries plan.Logs).getLast? = none ↔ ∀ log ∈ plan.Logs, log.Name ≠ "workdir") := by
  have hlast := plan_workdir_eq_last plan.Logs
  refine ⟨hlast, ?_, ?_⟩
  · unfold poll_plan
    simp only
    rw [hlast]
    cases (workdir_entries plan.Logs).getLast? with
    | none => simp
    | some log => simp
  · rw [List.getLast?_eq_none_iff]
    simp [workdir_entries, List.filter_eq_nil_iff]

/-! ## The per-plan discovery file -/

/-- C7: for a job `j` and a plan named `p` whose selected workdir location `w`
is not empty, the loop body of `poll_job` (run with the job directory
`jobs_dir/j`) is one call of `fetch_artifact`, from `w/p/discover/tests.yaml` to
`jobs_dir/j` followed directly by `p-tests.yaml`. -/
theorem poll_plan_fetch_url_and_path {FS : Type} (env : Env FS) (j : String) (p : String)
    (logs : List Log) (w : String) (s : PollState FS)
    (hw : plan_workdir logs = w) (hne : w ≠ "") :
    poll_plan env (jobs_dir ++ "/" ++ j) { Name := p, Logs := logs } s =
      fetch_artifact env (w ++ "/" ++ p ++ "/discover/tests.yaml")
        (jobs_dir ++ "/" ++ j ++ p ++ "-tests.yaml") s ∧
    (poll_plan env (jobs_dir ++ "/" ++ j) { Name := p, Logs := logs } s).state.calls =
      s.calls ++ [Call.fetch_artifact (w ++ "/" ++ p ++ "/discover/tests.yaml")
        (jobs_dir ++ "/" ++ j ++ p ++ "-tests.yaml")] := by
  have h1 : poll_plan env (jobs_dir ++ "/" ++ j) { Name := p, Logs := logs } s =
      fetch_artifact env (w ++ "/" ++ p ++ "/discover/tests.yaml")
        (jobs_dir ++ "/" ++ j ++ p ++ "-tests.yaml") s := by
    subst hw
    simp [poll_plan, hne]
  exact ⟨h1, by rw [h1, fetch_artifact_calls]⟩

theorem poll_plan_fetch_url_and_path_witness :
    (poll_plan (memEnv tf_complete [] []) (jobs_dir ++ "/" ++ "job-42")
      { Name := "plan1", Logs := plan_one_workdir.Logs } start_job42).state.calls =
      start_job42.calls ++ [Call.fetch_artifact ("https://x/work" ++ "/" ++ "plan1" ++ "/discover/tests.yaml")
        (jobs_dir ++ "/" ++ "job-42" ++ "plan1" ++ "-tests.yaml")] :=
  (poll_plan_fetch_url_and_path (memEnv tf_complete [] []) "job-42" "plan1"
    plan_one_workdir.Logs "https://x/work" start_job42 (by decide) (by decide)).2

/-- The destination of the per-plan file lies under the job directory exactly
when the plan name begins with a slash. -/
theorem tests_yaml_under_job_dir_iff (job : String) (p : String) :
    (jobs_dir ++ "/" ++ job ++ "/").data <+: (jobs_dir ++ "/" ++ job ++ p ++ "-tests.yaml").data ↔
      "/".data <+: p.data := by
  simp only [String.data_append, List.append_assoc]
  rw [List.prefix_append_right_inj, List.prefix_append_right_inj, List.prefix_append_right_inj]
  cases hp : p.data with
  | nil => simp
  | cons c cs => simp [List.cons_prefix_cons]

/-- C6, evaluated: for job `job-42` and a plan named `plan1` with a `workdir`
entry, the poll writes the per-plan file to `jobs_dir/job-42plan1-tests.yaml`, a
path that is not under `jobs_dir/job-42/`, while `results.xml` is written under
it. -/
theorem poll_job_tests_yaml_outside_job_dir :
    (poll_job (memEnv tf_complete [plan_one_workdir] []) "job-42" start_job42).state.calls =
      [Call.fetch_artifact "https://x/artifacts/results.xml" "/mnt/nfs/gacek/jobs/job-42/results.xml",
       Call.fetch_artifact "https://x/work/plan1/discover/tests.yaml"
         "/mnt/nfs/gacek/jobs/job-42plan1-tests.yaml",
       Call.move_job "job-42" "complete"] ∧
    (jobs_dir ++ "/" ++ "job-42" ++ "/").data <+: ("/mnt/nfs/gacek/jobs/job-42/results.xml").data ∧
    ¬ (jobs_dir ++ "/" ++ "job-42" ++ "/").data <+:
      ("/mnt/nfs/gacek/jobs/job-42plan1-tests.yaml").data ∧
    MemFS.read (poll_job (memEnv tf_complete [plan_one_workdir] []) "job-42" start_job42).state.fs
      "/mnt/nfs/gacek/jobs/job-42plan1-tests.yaml" = some "artifact" := by
  decide


/-! ## The three branches of `poll_job` -/

/-- C8: when the status of the job resolves to `error`, `poll_job` is the one
call `move_job(job, "error")`: the only recorded call is that move, no
`fetch_artifact` call is made, and the filesystem changes by the rename of
`queues/pending/<job>` to `queues/error/<job>` alone. -/
theorem poll_job_error_moves_only {FS : Type} (env : Env FS) (job : String) (id : String)
    (a : String) (s : PollState FS)
    (hid : get_tf_id env s.fs job = some id)
    (hst : fetch_tf_status env id = some ("error", a)) :
    (poll_job env job s).state.calls = s.calls ++ [Call.move_job job "error"] ∧
    (∀ url path, Call.fetch_artifact url path ∉ [Call.move_job job "error"]) ∧
    poll_job env job s =
      match env.osRename s.fs (queues_dir ++ "/pending/" ++ job)
          (queues_dir ++ "/" ++ "error" ++ "/" ++ job) with
      | none => .fatal { fs := s.fs, calls := s.calls ++ [Call.move_job job "error"] }
      | some fs1 => .done { fs := fs1, calls := s.calls ++ [Call.move_job job "error"] } := by
  have h : poll_job env job s = move_job env job "error" s := by
    simp [poll_job, hid, hst]
  refine ⟨by rw [h, move_job_calls], by simp, ?_⟩
  rw [h]
  unfold move_job
  simp only

theorem poll_job_error_moves_only_witness :
    (poll_job (memEnv tf_canceled [plan_one_workdir] []) "job-42" start_job42).state.calls =
      start_job42.calls ++ [Call.move_job "job-42" "error"] :=
  (poll_job_error_moves_only
    (memEnv tf_canceled [plan_one_workdir] [])
    "job-42" "abc-123" "" start_job42 (by decide) (by decide)).1

/-- C9: when the status of the job resolves to `pending`, `poll_job` returns
with the state it started from: no `move_job` call, no `fetch_artifact` call,
and the filesystem unchanged. -/
theorem poll_job_pending_unchanged {FS : Type} (env : Env FS) (job : String) (id : String)
    (a : String) (s : PollState FS)
    (hid : get_tf_id env s.fs job = some id)
    (hst : fetch_tf_status env id = some ("pending", a)) :
    poll_job env job s = .done s := by
  simp [poll_job, hid, hst]

theorem poll_job_pending_unchanged_witness :
    (poll_job (memEnv tf_running [plan_one_workdir] []) "job-42" start_job42).state.fs =
      fs_job42 :=
  congrArg (fun o => o.state.fs)
    (poll_job_pending_unchanged
      (memEnv tf_running [plan_one_workdir] [])
      "job-42" "abc-123" "" start_job42 (by decide) (by decide))

/-- C10, as stated, fails: the status of `job-42` resolves to `complete`,
`results.xml` is fetched and parsed into two plans, and the per-plan file of the
first plan answers 404.  The fetch is fatal: the calls are the `results.xml`
fetch and that one secondary fetch, no move is made and `job-42` stays in the
pending queue. -/
theorem poll_job_fatal_secondary_fetch :
    get_tf_id env_plan1_down start_job42.fs "job-42" = some "abc-123" ∧
    fetch_tf_status env_plan1_down "abc-123" = some ("complete", "https://x/artifacts") ∧
    (fetch_artifact env_plan1_down "https://x/artifacts/results.xml"
      "/mnt/nfs/gacek/jobs/job-42/results.xml" start_job42).returned = true ∧
    env_plan1_down.osReadFile
      (fetch_artifact env_plan1_down "https://x/artifacts/results.xml"
        "/mnt/nfs/gacek/jobs/job-42/results.xml" start_job42).state.fs
      "/mnt/nfs/gacek/jobs/job-42/results.xml" = some "artifact" ∧
    env_plan1_down.xmlUnmarshalResults "artifact" =
      some [{ Name := "plan1", Logs := [{ Name := "console", Url := "https://x/console.log" },
                                       { Name := "workdir", Url := "https://x/work" }] },
            { Name := "planB", Logs := [{ Name := "workdir", Url := "https://x/wb" }] }] ∧
    (poll_job env_plan1_down "job-42" start_job42).returned = false ∧
    (poll_job env_plan1_down "job-42" start_job42).state.calls =
      [Call.fetch_artifact "https://x/artifacts/results.xml" "/mnt/nfs/gacek/jobs/job-42/results.xml",
       Call.fetch_artifact "https://x/work/plan1/discover/tests.yaml"
         "/mnt/nfs/gacek/jobs/job-42plan1-tests.yaml"] ∧
    (poll_job env_plan1_down "job-42" start_job42).state.calls.getLast? ≠
      some (Call.move_job "job-42" "complete") ∧
    MemFS.read (poll_job env_plan1_down "job-42" start_job42).state.fs
      "/mnt/nfs/gacek/queues/pending/job-42" = some "" ∧
    MemFS.read (poll_job env_plan1_down "job-42" start_job42).state.fs
      "/mnt/nfs/gacek/queues/complete/job-42" = none := by
  decide

/-- C10, amended: when the status of the job resolves to `complete` with
artifact location `a`, and `results.xml` was fetched and parsed into `plans`,
`poll_job` runs the loop over the plans and, if the loop returns, calls
`move_job(job, "complete")`.  Its calls are always an initial part of: the fetch
of `a/results.xml` to `jobs_dir/job/results.xml`, the secondary fetches of the
plans in document order, one `move_job(job, "complete")`; they start with the
`results.xml` fetch, so no move precedes a fetch, and never hold a move to
`error`.  When a secondary fetch is fatal no move is made at all.  When none is
fatal (in particular when `poll_job` returns) the calls are that whole sequence,
which holds exactly one move, and the filesystem left by the fetches changes by
the rename of `queues/pending/<job>` to `queues/complete/<job>` alone. -/
theorem poll_job_complete_calls {FS : Type} (env : Env FS) (job : String) (id : String)
    (a : String) (bytes : String) (plans : List Plan) (s s1 : PollState FS)
    (hid : get_tf_id env s.fs job = some id)
    (hst : fetch_tf_status env id = some ("complete", a))
    (hres : fetch_artifact env (a ++ "/results.xml") (jobs_dir ++ "/" ++ job ++ "/results.xml") s
      = .done s1)
    (hread : env.osReadFile s1.fs (jobs_dir ++ "/" ++ job ++ "/results.xml") = some bytes)
    (hparse : env.xmlUnmarshalResults bytes = some plans) :
    (poll_job env job s =
      match poll_plans env (jobs_dir ++ "/" ++ job) plans s1 with
      | .fatal s2 => .fatal s2
      | .done s2 => move_job env job "complete" s2) ∧
    (∃ made, (poll_job env job s).state.calls = s.calls ++ made ∧
      [Call.fetch_artifact (a ++ "/results.xml") (jobs_dir ++ "/" ++ job ++ "/results.xml")]
        <+: made ∧
      made <+: complete_calls job a plans ∧
      Call.move_job job "error" ∉ made ∧
      ((poll_plans env (jobs_dir ++ "/" ++ job) plans s1).returned = false →
        (poll_job env job s).returned = false ∧ ∀ c ∈ made, c.is_move = false)) ∧
    ((complete_calls job a plans).filter Call.is_move = [Call.move_job job "complete"]) ∧
    ((secondary_fetches_succeed env (jobs_dir ++ "/" ++ job) plans ∨
        (poll_job env job s).returned = true) →
      (poll_job env job s).state.calls = s.calls ++ complete_calls job a plans ∧
      ∃ s2, poll_plans env (jobs_dir ++ "/" ++ job) plans s1 = .done s2 ∧
        poll_job env job s =
          match env.osRename s2.fs (queues_dir ++ "/pending/" ++ job)
              (queues_dir ++ "/" ++ "complete" ++ "/" ++ job) with
          | none => .fatal { fs := s2.fs, calls := s.calls ++ complete_calls job a plans }
          | some fs1 => .done { fs := fs1, calls := s.calls ++ complete_calls job a plans }) := by
  have hs1 : s1.calls = s.calls ++
      [Call.fetch_artifact (a ++ "/results.xml") (jobs_dir ++ "/" ++ job ++ "/results.xml")] := by
    have := fetch_artifact_calls env (a ++ "/results.xml")
      (jobs_dir ++ "/" ++ job ++ "/results.xml") s
    rw [hres] at this
    exact this
  have hpoll : poll_job env job s =
      match poll_plans env (jobs_dir ++ "/" ++ job) plans s1 with
      | .fatal s2 => .fatal s2
      | .done s2 => move_job env job "complete" s2 := by
    simp [poll_job, hid, hst, hres, hread, hparse]
  have hdone : ∀ s2, poll_plans env (jobs_dir ++ "/" ++ job) plans s1 = .done s2 →
      s2.calls ++ [Call.move_job job "complete"] = s.calls ++ complete_calls job a plans := by
    intro s2 hp
    rw [poll_plans_calls_done env _ plans s1 s2 hp, hs1]
    simp [complete_calls]
  have hfull : (poll_plans env (jobs_dir ++ "/" ++ job) plans s1).returned = true →
      (poll_job env job s).state.calls = s.calls ++ complete_calls job a plans := by
    intro hret
    rw [hpoll]
    cases hp : poll_plans env (jobs_dir ++ "/" ++ job) plans s1 with
    | fatal s2 => simp [hp, Outcome.returned] at hret
    | done s2 =>
      simp only
      rw [move_job_calls, hdone s2 hp]
  have hnoerr : Call.move_job job "error" ∉ complete_calls job a plans := by
    intro hmem
    simp only [complete_calls, List.mem_append, List.mem_singleton, List.mem_filterMap] at hmem
    rcases hmem with (hmem | ⟨plan, -, hmem⟩) | hmem
    · cases hmem
    · unfold secondary_fetch at hmem
      by_cases hw : plan_workdir plan.Logs = "" <;> simp [hw] at hmem
    · simp at hmem
  refine ⟨hpoll, ?_, complete_calls_moves job a plans, ?_⟩
  · cases hp : poll_plans env (jobs_dir ++ "/" ++ job) plans s1 with
    | done s2 =>
      have := hfull (by simp [hp, Outcome.returned])
      exact ⟨complete_calls job a plans, this,
        by simp [complete_calls], List.prefix_refl _, hnoerr,
        fun hf => by simp [Outcome.returned] at hf⟩
    | fatal s2 =>
      obtain ⟨made, h1, h2⟩ := poll_plans_calls_made env (jobs_dir ++ "/" ++ job) plans s1
      rw [hp] at h1
      simp only [Outcome.state] at h1
      have hpre : [Call.fetch_artifact (a ++ "/results.xml")
          (jobs_dir ++ "/" ++ job ++ "/results.xml")] ++ made <+: complete_calls job a plans := by
        unfold complete_calls
        rw [List.append_assoc]
        exact (List.prefix_append_right_inj _).mpr (h2.trans (List.prefix_append _ _))
      refine ⟨[Call.fetch_artifact (a ++ "/results.xml")
          (jobs_dir ++ "/" ++ job ++ "/results.xml")] ++ made, ?_, List.prefix_append _ _,
        hpre, fun hm => hnoerr (hpre.subset hm), fun _ => ⟨?_, ?_⟩⟩
      · rw [hpoll, hp]
        simp [Outcome.state, h1, hs1]
      · rw [hpoll, hp]
        rfl
      · intro c hc
        rcases List.mem_append.mp hc with hc | hc
        · rw [List.mem_singleton] at hc
          rw [hc]
          rfl
        · obtain ⟨url, path, rfl⟩ := secondary_fetch_is_fetch _ plans c (h2.subset hc)
          rfl
  · intro hok
    have hret : (poll_plans env (jobs_dir ++ "/" ++ job) plans s1).returned = true := by
      rcases hok with hok | hok
      · exact poll_plans_returned env _ plans hok s1
      · rw [hpoll] at hok
        cases hp : poll_plans env (jobs_dir ++ "/" ++ job) plans s1 with
        | fatal s2 => simp [hp, Outcome.returned] at hok
        | done s2 => rfl
    refine ⟨hfull hret, ?_⟩
    cases hp : poll_plans env (jobs_dir ++ "/" ++ job) plans s1 with
    | fatal s2 => simp [hp, Outcome.returned] at hret
    | done s2 =>
      refine ⟨s2, rfl, ?_⟩
      rw [hpoll, hp]
      simp only
      unfold move_job
      simp only
      rw [hdone s2 hp]

theorem poll_job_complete_calls_witness :
    (poll_job (memEnv tf_complete [plan_one_workdir, plan_no_logs, plan_two_workdirs] [])
      "job-42" start_job42).state.calls =
      [Call.fetch_artifact "https://x/artifacts/results.xml" "/mnt/nfs/gacek/jobs/job-42/results.xml",
       Call.fetch_artifact "https://x/work/plan1/discover/tests.yaml"
         "/mnt/nfs/gacek/jobs/job-42plan1-tests.yaml",
       Call.fetch_artifact "https://x/b/p/discover/tests.yaml"
         "/mnt/nfs/gacek/jobs/job-42p-tests.yaml",
       Call.move_job "job-42" "complete"] :=
  ((poll_job_complete_calls
    (memEnv tf_complete [plan_one_workdir, plan_no_logs, plan_two_workdirs] [])
    "job-42" "abc-123" "https://x/artifacts" "artifact"
    [plan_one_workdir, plan_no_logs, plan_two_workdirs] start_job42
    (fetch_artifact (memEnv tf_complete [plan_one_workdir, plan_no_logs, plan_two_workdirs] [])
      ("https://x/artifacts" ++ "/results.xml") (jobs_dir ++ "/" ++ "job-42" ++ "/results.xml")
      start_job42).state
    (by decide) (by decide) rfl (by decide) rfl).2.2.2
    (Or.inl (memEnv_secondary_fetches_succeed _ _ _ _))).1.trans (by decide)

end Gacek
